import Mathlib

/-!
Shallow embedding of the core of `src/rag_abstract_8.py`, a step-back RAG
pipeline: environment/credential setup (`set_env`), index-name derivation
(`get_index_name`), chunking (`split_pdf`, delegated to a library splitter and
modelled from the spec), idempotent vector-index provisioning
(`get_retriever`), deduplication of retrieved documents (`get_unique_union`)
and the final fusion chain (`get_final_rag_chain`).
-/

namespace Rag

/-! ## Documents and canonical serialization

A langchain `Document` carries a `page_content` string and a metadata mapping.
`langchain.load.dumps` serializes a document to a canonical JSON string and
`langchain.load.loads` parses it back; the round trip is lossless, and two
documents serialize to the same string exactly when their content and metadata
are equal.  We model the serialized form as a wrapper carrying the document
itself, which gives exactly those two properties. -/

structure Document where
  page_content : String
  metadata : List (String × String)
deriving DecidableEq, Repr

/-- The canonical serialized form of a `Document` (model of the JSON string
produced by `langchain.load.dumps`). -/
structure SerializedDoc where
  payload : Document
deriving DecidableEq, Repr

/-- Model of `langchain.load.dumps`: canonical, lossless serialization. -/
def dumps (d : Document) : SerializedDoc := ⟨d⟩

/-- Model of `langchain.load.loads`: inverse of `dumps`. -/
def loads (s : SerializedDoc) : Document := s.payload

theorem loads_dumps (d : Document) : loads (dumps d) = d := rfl

theorem dumps_injective : Function.Injective dumps := by
  intro a b h
  exact congrArg loads h

/-- Embedding of `get_unique_union` (src/rag_abstract_8.py lines 112-119):
serialize every retrieved document with `dumps`, collapse duplicates with a
set (`List.dedup` models `list(set(...))`; the claims are order-insensitive),
and keep only the `page_content` of each deserialized survivor. -/
def get_unique_union (documents : List Document) : List String :=
  let flattened_docs := documents.map dumps
  let unique_docs := flattened_docs.dedup
  unique_docs.map (fun doc => (loads doc).page_content)

/-! ## Index-name derivation

Embedding of `get_index_name` (src/rag_abstract_8.py lines 35-38):

    index_name = prefix + ":" + ' '.join(
        re.split(r'[.]', os.path.basename(data_source))[:-1][0].split(' ')[-5:]).lower()
    index_name = re.sub(r'-{1,}', '-', re.sub(r'[^a-z0-9]', '-', index_name))[:45]

Strings are processed as their character lists.  `splitOnChar` models both
Python `str.split(sep)` with a one-character separator and `re.split` on a
single-character class: empty pieces are kept, and splitting the empty string
yields one empty piece. -/

/-- Model of Python `s.split(sep)` / `re.split` for a single-character
separator: keeps empty pieces, `[[]]` on the empty string. -/
def splitOnChar (sep : Char) : List Char → List (List Char)
  | [] => [[]]
  | c :: rest =>
    if c = sep then [] :: splitOnChar sep rest
    else
      match splitOnChar sep rest with
      | [] => [[c]]
      | h :: t => (c :: h) :: t

/-- Model of `os.path.basename`: the part after the last `/`. -/
def basename (cs : List Char) : List Char :=
  (splitOnChar '/' cs).getLastD []

/-- One character of `re.sub(r'[^a-z0-9]', '-', _)`: characters outside
`[a-z0-9]` become a hyphen. -/
def isLowerAlnum (c : Char) : Bool :=
  ('a' ≤ c && c ≤ 'z') || ('0' ≤ c && c ≤ '9')

def charMap (c : Char) : Char :=
  if isLowerAlnum c then c else '-'

/-- Model of `re.sub(r'-{1,}', '-', _)`: every maximal run of hyphens is
replaced by a single hyphen (a hyphen directly followed by another hyphen is
dropped). -/
def collapseHyphens : List Char → List Char
  | [] => []
  | [c] => [c]
  | c1 :: c2 :: rest =>
    if c1 = '-' && c2 = '-' then collapseHyphens (c2 :: rest)
    else c1 :: collapseHyphens (c2 :: rest)

/-- Embedding of `get_index_name`.  Python raises `IndexError` when the
`[0]` indexing hits an empty list (a basename with no dot); the embedding
returns `none` there, `Option.map` covering the `some` path. -/
def get_index_name (pre : String) (data_source : String) : Option String :=
  (List.dropLast (splitOnChar '.' (basename data_source.data))).head?.map
    (fun stem =>
      let words := splitOnChar ' ' stem
      let last5 := words.drop (words.length - 5)
      let joined := (List.intercalate [' '] last5).map Char.toLower
      let raw := pre.data ++ [':'] ++ joined
      String.mk ((collapseHyphens (raw.map charMap)).take 45))

/-- `True` exactly when a run of at least two consecutive hyphens occurs. -/
def noRepeatHyphen : List Char → Bool
  | c1 :: c2 :: rest => !(c1 == '-' && c2 == '-') && noRepeatHyphen (c2 :: rest)
  | _ => true

/-- Decidable form of the regular expression `[a-z0-9]+(-[a-z0-9]+)*` anchored
at both ends: nonempty, characters restricted to `[a-z0-9-]`, no repeated
hyphens, no leading or trailing hyphen. -/
def matchesIndexRegex (s : String) : Bool :=
  let cs := s.data
  (!cs.isEmpty) && cs.all (fun c => isLowerAlnum c || c == '-') &&
  noRepeatHyphen cs &&
  (cs.head? != some '-') && (cs.getLast? != some '-')

/-! ## Environment setup

Embedding of `set_env` (src/rag_abstract_8.py lines 18-33).  `os.environ` is a
string-to-string mapping; assigning a value works like a Python dict update,
and assigning `None` raises `TypeError` (`os.environ` only accepts `str`
values), aborting the function at that statement. -/

/-- The process environment: an association list of set variables.  A key that
is absent models an unset variable. -/
abbrev Env : Type := List (String × String)

def envGet (env : Env) (k : String) : Option String :=
  (List.find? (fun p => p.1 == k) env).map (fun p => p.2)

def envSet (env : Env) (k v : String) : Env :=
  if List.any env (fun p => p.1 == k) then
    List.map (fun p => if p.1 == k then (k, v) else p) env
  else env ++ [(k, v)]

inductive PyError where
  | typeError
  | valueError (msg : String)
  | indexError
deriving DecidableEq, Repr

/-- Inner helper `os_param_not_set` of `set_env`: unset or empty. -/
def os_param_not_set (env : Env) (param : String) : Bool :=
  envGet env param == none || envGet env param == some ""

/-- Embedding of `set_env`.  The three tracing variables are set first; if
`LANGCHAIN_API_KEY` is unset or empty, the code executes
`os.environ['LANGCHAIN_TRACING_V2'] = None`, which raises `TypeError`
immediately, so the `GROQ_API_KEY` and `PINECONE_API_KEY` checks are never
reached on that path. -/
def set_env (env : Env) (project_name : String) : Except PyError Env :=
  let env1 := envSet env "LANGCHAIN_TRACING_V2" "true"
  let env2 := envSet env1 "LANGCHAIN_ENDPOINT" "https://api.smith.langchain.com"
  let env3 := envSet env2 "LANGCHAIN_PROJECT" project_name
  if os_param_not_set env3 "LANGCHAIN_API_KEY" then
    Except.error PyError.typeError
  else if os_param_not_set env3 "GROQ_API_KEY" then
    Except.error (PyError.valueError "GROQ_API_KEY not set.")
  else if os_param_not_set env3 "PINECONE_API_KEY" then
    Except.error (PyError.valueError "PINECONE_API_KEY not set.")
  else Except.ok env3

/-! ## Index provisioning

Embedding of `get_retriever` together with its inner `_create_pinecone_index`
(src/rag_abstract_8.py lines 64-82).  The Pinecone store is modelled as the
list of its indexes, each carrying its name and current vector count.
`PineconeVectorStore.from_documents` embeds and upserts every chunk into the
index (adding `docs.length` vectors); `from_existing_index` only wraps the
existing index and adds nothing. -/

structure PineconeState where
  indexes : List (String × Nat)
deriving DecidableEq, Repr

/-- How many indexes of the store carry this name (the Python code compares
`sum([index.name==index_name ...]) == 1`). -/
def countName (st : PineconeState) (name : String) : Nat :=
  List.countP (fun p => p.1 == name) st.indexes

def totalVectors (st : PineconeState) : Nat :=
  (st.indexes.map (fun p => p.2)).sum

/-- Model of `pc.create_index(...)`: a fresh empty index appears. -/
def create_index (st : PineconeState) (name : String) : PineconeState :=
  { indexes := st.indexes ++ [(name, 0)] }

/-- Model of `PineconeVectorStore.from_documents`: upsert `numDocs` vectors
into the named index. -/
def from_documents (st : PineconeState) (numDocs : Nat) (name : String) :
    PineconeState :=
  { indexes := st.indexes.map (fun p => if p.1 == name then (p.1, p.2 + numDocs) else p) }

/-- Embedding of the inner `_create_pinecone_index`: returns `false` (no
creation) when exactly one index with the name exists, otherwise creates the
index and returns `true`. -/
def create_pinecone_index (st : PineconeState) (index_name : String) :
    Bool × PineconeState :=
  if countName st index_name == 1 then (false, st)
  else (true, create_index st index_name)

/-- The retrieval handle `vectorstore.as_retriever(search_kwargs={"k": k})`. -/
structure Retriever where
  index_name : String
  k : Nat
deriving DecidableEq, Repr

/-- Embedding of `get_retriever`: provision the index, upserting the chunk
vectors only when a new index was created, and return the retrieval handle.
The result carries the handle, the updated store state, and whether the
upsert (`from_documents`) path ran. -/
def get_retriever (st : PineconeState) (numDocs : Nat) (k : Nat)
    (index_name : String) : Retriever × PineconeState × Bool :=
  let created := (create_pinecone_index st index_name).1
  let st1 := (create_pinecone_index st index_name).2
  if created then
    (⟨index_name, k⟩, from_documents st1 numDocs index_name, true)
  else
    (⟨index_name, k⟩, st1, false)

/-! ## Chunking

`split_pdf` (src/rag_abstract_8.py lines 48-62) delegates the actual chunking
to `RecursiveCharacterTextSplitter`, third-party library code that is not part
of this repository; only the token counter and the `chunk_size` /
`chunk_overlap` parameters live here. -/

inductive ChunkError where
  | configurationError
deriving DecidableEq, Repr

/-- Modelled from the spec: the chunking algorithm of
`RecursiveCharacterTextSplitter` used by `split_pdf` is library code missing
from the repository.  §4.1 of the spec: greedily accumulate text until the
measured token count reaches `chunk_size`, then start the next chunk by
stepping back `chunk_overlap` tokens; `chunk_overlap ≥ chunk_size` is a
configuration error that must fail fast.  The model works directly on the
token sequence of the document, so a chunk's token count is its length; the
`fuel` argument (instantiated with the document length) bounds the recursion
and is never exhausted when the step is positive. -/
def chunkTokensAux {α : Type} (chunk_size step : Nat) :
    Nat → List α → List (List α)
  | 0, tokens => [tokens]
  | fuel + 1, tokens =>
    if tokens.length ≤ chunk_size then [tokens]
    else tokens.take chunk_size :: chunkTokensAux chunk_size step fuel (tokens.drop step)

/-- Modelled from the spec (§4.1): the chunker contract
`split(document_text, chunk_size, chunk_overlap, token_counter)`.  Fails fast
with a configuration error when `chunk_overlap ≥ chunk_size`; otherwise emits
chunks of at most `chunk_size` tokens, each starting `chunk_size -
chunk_overlap` tokens after its predecessor. -/
def split_pdf {α : Type} (tokens : List α) (chunk_size chunk_overlap : Nat) :
    Except ChunkError (List (List α)) :=
  if chunk_size ≤ chunk_overlap then Except.error ChunkError.configurationError
  else Except.ok (chunkTokensAux chunk_size (chunk_size - chunk_overlap)
    tokens.length tokens)

/-! ## The final RAG chain

Embedding of `get_final_rag_chain` (src/rag_abstract_8.py lines 111-153).  The
chain is a parallel map of three entries evaluated over the input
`{"question": q}`:

    "normal_context":    (lambda x: x["question"]) | retriever | get_unique_union
    "step_back_context": query_enchance_chain | retriever | get_unique_union
    "question":          lambda x: x["question"]

followed by `response_prompt | llm | StrOutputParser()`.  The query-enhance
chain and the LLM are external collaborators, injected as functions.  The
formatted `response_prompt` is modelled by the structured values filled into
its three template slots; the run record also keeps the list of query strings
sent to the retriever, in chain order. -/

structure ResponsePrompt where
  normal_context : List String
  step_back_context : List String
  question : String
deriving DecidableEq, Repr

structure RagRun where
  answer : String
  queries : List String
  normal_context : List String
  step_back_context : List String
deriving DecidableEq, Repr

def get_final_rag_chain (query_enhance_chain : String → String)
    (retriever : String → List Document) (llm : ResponsePrompt → String)
    (question : String) : RagRun :=
  let normal_query := question
  let normal_docs := retriever normal_query
  let step_back_query := query_enhance_chain question
  let step_back_docs := retriever step_back_query
  let normal_context := get_unique_union normal_docs
  let step_back_context := get_unique_union step_back_docs
  let response_prompt : ResponsePrompt := ⟨normal_context, step_back_context, question⟩
  { answer := llm response_prompt
    queries := [normal_query, step_back_query]
    normal_context := normal_context
    step_back_context := step_back_context }

/-! ## Helper lemmas -/

theorem dedup_map_of_injective {α β : Type} [DecidableEq α] [DecidableEq β]
    (f : α → β) (hf : Function.Injective f) :
    ∀ l : List α, (l.map f).dedup = l.dedup.map f := by
  intro l
  induction l with
  | nil => rfl
  | cons a l ih =>
    have hmem : f a ∈ l.map f ↔ a ∈ l := by
      constructor
      · intro h
        rcases List.mem_map.mp h with ⟨b, hb, hfb⟩
        rwa [hf hfb] at hb
      · intro h
        exact List.mem_map_of_mem f h
    by_cases h : a ∈ l
    · rw [List.map_cons, List.dedup_cons_of_mem (hmem.mpr h),
        List.dedup_cons_of_mem h, ih]
    · rw [List.map_cons, List.dedup_cons_of_not_mem (fun hc => h (hmem.mp hc)),
        List.dedup_cons_of_not_mem h, ih, List.map_cons]

theorem envGet_cons (p : String × String) (env : Env) (k : String) :
    envGet (p :: env) k = if p.1 == k then some p.2 else envGet env k := by
  unfold envGet
  rw [List.find?_cons]
  cases hb : p.1 == k <;> simp [hb]

theorem envGet_map_update (env : Env) (k1 k2 v : String) (h : k1 ≠ k2) :
    envGet (List.map (fun p => if p.1 == k1 then (k1, v) else p) env) k2
      = envGet env k2 := by
  induction env with
  | nil => rfl
  | cons p env ih =>
    rw [List.map_cons, envGet_cons, envGet_cons]
    by_cases h1 : p.1 = k1
    · simp only [h1, beq_self_eq_true, if_true]
      have e2 : (k1 == k2) = false := by simp [h]
      simp [e2]
      simpa using ih
    · have e1 : (p.1 == k1) = false := by simp [h1]
      simp only [e1, Bool.false_eq_true, if_false]
      by_cases h2 : p.1 = k2
      · simp [h2]
      · have e2 : (p.1 == k2) = false := by simp [h2]
        simp [e2]
        simpa using ih

theorem envGet_append_single_ne (env : Env) (k1 k2 v : String) (h : k1 ≠ k2) :
    envGet (env ++ [(k1, v)]) k2 = envGet env k2 := by
  induction env with
  | nil =>
    rw [List.nil_append, envGet_cons]
    simp [h]
  | cons p env ih =>
    rw [List.cons_append, envGet_cons, envGet_cons, ih]

theorem envGet_envSet_ne (env : Env) (k1 k2 v : String) (h : k1 ≠ k2) :
    envGet (envSet env k1 v) k2 = envGet env k2 := by
  unfold envSet
  split
  · exact envGet_map_update env k1 k2 v h
  · exact envGet_append_single_ne env k1 k2 v h

theorem countName_create_index (st : PineconeState) (name : String) :
    countName (create_index st name) name = countName st name + 1 := by
  unfold countName create_index
  rw [List.countP_append]
  simp [List.countP_cons]

theorem countName_from_documents (st : PineconeState) (numDocs : Nat)
    (name q : String) :
    countName (from_documents st numDocs name) q = countName st q := by
  unfold countName from_documents
  induction st.indexes with
  | nil => rfl
  | cons p l ih =>
    rw [List.map_cons, List.countP_cons, List.countP_cons, ih]
    by_cases h1 : p.1 = name
    · simp [h1]
    · simp [h1]

theorem get_retriever_existing (st : PineconeState) (numDocs k : Nat)
    (name : String) (h : countName st name = 1) :
    get_retriever st numDocs k name = (⟨name, k⟩, st, false) := by
  unfold get_retriever create_pinecone_index
  simp [h]

theorem get_retriever_fresh (st : PineconeState) (numDocs k : Nat)
    (name : String) (h : countName st name ≠ 1) :
    get_retriever st numDocs k name
      = (⟨name, k⟩, from_documents (create_index st name) numDocs name, true) := by
  unfold get_retriever create_pinecone_index
  simp [h]

theorem countName_after_get_retriever (st : PineconeState) (numDocs k : Nat)
    (name : String) (h : countName st name ≤ 1) :
    countName (get_retriever st numDocs k name).2.1 name = 1 := by
  rcases Nat.le_one_iff_eq_zero_or_eq_one.mp h with h0 | h1
  · rw [get_retriever_fresh st numDocs k name (by rw [h0]; exact Nat.zero_ne_one)]
    rw [countName_from_documents, countName_create_index, h0]
  · rw [get_retriever_existing st numDocs k name h1]
    exact h1

theorem splitOnChar_of_not_mem (sep : Char) (cs : List Char) (h : sep ∉ cs) :
    splitOnChar sep cs = [cs] := by
  induction cs with
  | nil => rfl
  | cons c rest ih =>
    have hc : ¬ c = sep := fun e => h (e ▸ List.mem_cons_self c rest)
    have hrest : sep ∉ rest := fun hm => h (List.mem_cons_of_mem c hm)
    rw [splitOnChar, if_neg hc, ih hrest]

theorem chunkTokensAux_length_le {α : Type} (chunk_size step : Nat)
    (hstep : 1 ≤ step) :
    ∀ (fuel : Nat) (tokens : List α), tokens.length ≤ fuel →
      ∀ c ∈ chunkTokensAux chunk_size step fuel tokens, c.length ≤ chunk_size := by
  intro fuel
  induction fuel with
  | zero =>
    intro tokens hlen c hc
    have : tokens = [] := List.eq_nil_of_length_eq_zero (Nat.le_zero.mp hlen)
    subst this
    rw [chunkTokensAux] at hc
    rcases List.mem_singleton.mp hc with rfl
    simp
  | succ fuel ih =>
    intro tokens hlen c hc
    rw [chunkTokensAux] at hc
    by_cases hsz : tokens.length ≤ chunk_size
    · rw [if_pos hsz] at hc
      rcases List.mem_singleton.mp hc with rfl
      exact hsz
    · rw [if_neg hsz] at hc
      rcases List.mem_cons.mp hc with rfl | hmem
      · simp
      · refine ih (tokens.drop step) ?_ c hmem
        rw [List.length_drop]
        omega

theorem collapseHyphens_head_of_ne (c : Char) (rest : List Char)
    (h : ¬ c = '-') : (collapseHyphens (c :: rest)).head? = some c := by
  cases rest with
  | nil => rfl
  | cons c2 rest2 =>
    rw [collapseHyphens]
    have : (c = '-' && c2 = '-') = false := by simp [h]
    rw [this, if_neg (by simp)]
    rfl

theorem noRepeatHyphen_cons (c : Char) (l : List Char) :
    noRepeatHyphen (c :: l)
      = (!(c == '-' && l.head? == some '-') && noRepeatHyphen l) := by
  cases l with
  | nil => simp [noRepeatHyphen]
  | cons c2 rest => simp [noRepeatHyphen]

theorem noRepeatHyphen_collapseHyphens (l : List Char) :
    noRepeatHyphen (collapseHyphens l) = true := by
  induction l with
  | nil => rfl
  | cons c1 tail ih =>
    cases tail with
    | nil => rfl
    | cons c2 rest =>
      rw [collapseHyphens]
      by_cases hb : (c1 = '-' && c2 = '-') = true
      · rw [if_pos hb]
        exact ih
      · rw [if_neg hb, noRepeatHyphen_cons, ih, Bool.and_true]
        by_cases h1 : c1 = '-'
        · have h2 : ¬ c2 = '-' := by
            intro h2
            exact hb (by simp [h1, h2])
          rw [collapseHyphens_head_of_ne c2 rest h2]
          simp [h2]
        · simp [h1]

theorem mem_collapseHyphens (l : List Char) (c : Char)
    (hc : c ∈ collapseHyphens l) : c ∈ l := by
  induction l with
  | nil => simp [collapseHyphens] at hc
  | cons c1 tail ih =>
    cases tail with
    | nil =>
      rw [collapseHyphens] at hc
      rcases List.mem_singleton.mp hc with rfl
      simp
    | cons c2 rest =>
      rw [collapseHyphens] at hc
      by_cases hb : (c1 = '-' && c2 = '-') = true
      · rw [if_pos hb] at hc
        exact List.mem_cons_of_mem c1 (ih hc)
      · rw [if_neg hb] at hc
        rcases List.mem_cons.mp hc with rfl | hmem
        · exact List.mem_cons_self c (c2 :: rest)
        · exact List.mem_cons_of_mem c1 (ih hmem)

theorem head?_take_ne (l : List Char) (n : Nat) (a : Char)
    (h : l.head? ≠ some a) : (l.take n).head? ≠ some a := by
  cases l with
  | nil => simp [List.take_nil]
  | cons c rest =>
    cases n with
    | zero => simp
    | succ n => simpa using h

theorem noRepeatHyphen_take (n : Nat) (l : List Char)
    (h : noRepeatHyphen l = true) : noRepeatHyphen (l.take n) = true := by
  induction l generalizing n with
  | nil => simp [List.take_nil]; rfl
  | cons c rest ih =>
    cases n with
    | zero => rfl
    | succ n =>
      rw [List.take_succ_cons, noRepeatHyphen_cons]
      rw [noRepeatHyphen_cons] at h
      rcases Bool.and_eq_true_iff.mp h with ⟨h1, h2⟩
      rw [ih n h2, Bool.and_true]
      by_cases hc : c = '-'
      · have hr : rest.head? ≠ some '-' := by
          intro he
          rw [hc, he] at h1
          simp at h1
        have := head?_take_ne rest n '-' hr
        simp [this]
      · simp [hc]

theorem charMap_in_charset (c : Char) :
    (isLowerAlnum (charMap c) || charMap c == '-') = true := by
  unfold charMap
  by_cases h : isLowerAlnum c
  · rw [if_pos h, h, Bool.true_or]
  · rw [if_neg h]
    simp

/-! ## Claim theorems -/

/-- C2: `get_unique_union` collapses retrieved documents that are equal after
canonical serialization (identical content and metadata) to exactly one entry,
and the resulting context block holds exactly the `page_content` strings of
the deduplicated documents; in particular a result list with two identical
(content, metadata) documents yields a single copy. -/
theorem get_unique_union_dedup (documents : List Document) :
    get_unique_union documents = documents.dedup.map Document.page_content ∧
    ∀ d : Document, get_unique_union [d, d] = [d.page_content] := by
  have key : ∀ l : List Document,
      get_unique_union l = l.dedup.map Document.page_content := by
    intro l
    unfold get_unique_union
    dsimp only
    rw [dedup_map_of_injective dumps dumps_injective, List.map_map]
    rfl
  refine ⟨key documents, fun d => ?_⟩
  rw [key [d, d], List.dedup_cons_of_mem (List.mem_singleton.mpr rfl),
    List.dedup_cons_of_not_mem (List.not_mem_nil d), List.dedup_nil]
  rfl

/-- C4: for every question, the final RAG chain issues exactly two similarity
searches against the retriever: one keyed by exactly the original question and
one keyed by exactly the reformulated question produced by the
query-enhancement chain. -/
theorem final_rag_chain_two_queries (query_enhance_chain : String → String)
    (retriever : String → List Document) (llm : ResponsePrompt → String)
    (question : String) :
    (get_final_rag_chain query_enhance_chain retriever llm question).queries
      = [question, query_enhance_chain question] := rfl

/-- C6: a configuration with `chunk_overlap ≥ chunk_size` makes the chunker
fail fast with a configuration error instead of producing chunks. -/
theorem split_pdf_overlap_error {α : Type} (tokens : List α)
    (chunk_size chunk_overlap : Nat) (h : chunk_size ≤ chunk_overlap) :
    split_pdf tokens chunk_size chunk_overlap
      = Except.error ChunkError.configurationError := by
  unfold split_pdf
  rw [if_pos h]

theorem split_pdf_overlap_error_witness :
    512 ≤ 512 ∧ split_pdf ([0, 1, 2] : List Nat) 512 512
      = Except.error ChunkError.configurationError :=
  ⟨Nat.le_refl 512, split_pdf_overlap_error [0, 1, 2] 512 512 (Nat.le_refl 512)⟩

/-- C7: `get_index_name` is deterministic — equal (prefix, filename) argument
pairs always give equal index identifiers; the embedding is a pure function of
nothing but its two arguments. -/
theorem get_index_name_deterministic (p1 f1 p2 f2 : String)
    (hp : p1 = p2) (hf : f1 = f2) :
    get_index_name p1 f1 = get_index_name p2 f2 := by
  rw [hp, hf]

theorem get_index_name_deterministic_witness :
    ("rag-abstract-8" : String) = "rag-abstract-8" ∧
    ("doc.pdf" : String) = "doc.pdf" ∧
    get_index_name "rag-abstract-8" "doc.pdf"
      = get_index_name "rag-abstract-8" "doc.pdf" :=
  ⟨rfl, rfl, get_index_name_deterministic "rag-abstract-8" "doc.pdf"
    "rag-abstract-8" "doc.pdf" rfl rfl⟩

/-- C8: when both similarity searches succeed with zero results, both context
blocks are empty lists and the synthesis step still proceeds: the prompt is
built from the empty contexts and the LLM is invoked on it. -/
theorem empty_retrieval_still_synthesizes (query_enhance_chain : String → String)
    (retriever : String → List Document) (llm : ResponsePrompt → String)
    (question : String)
    (h1 : retriever question = [])
    (h2 : retriever (query_enhance_chain question) = []) :
    (get_final_rag_chain query_enhance_chain retriever llm question).normal_context
      = [] ∧
    (get_final_rag_chain query_enhance_chain retriever llm question).step_back_context
      = [] ∧
    (get_final_rag_chain query_enhance_chain retriever llm question).answer
      = llm ⟨[], [], question⟩ := by
  unfold get_final_rag_chain
  dsimp only
  rw [h1, h2]
  exact ⟨rfl, rfl, rfl⟩

theorem empty_retrieval_still_synthesizes_witness :
    ((fun _ : String => ([] : List Document)) "q" = []) ∧
    ((fun _ : String => ([] : List Document)) ((fun s : String => s) "q") = []) ∧
    ((get_final_rag_chain (fun s => s) (fun _ => []) (fun _ => "answer")
        "q").normal_context = [] ∧
      (get_final_rag_chain (fun s => s) (fun _ => []) (fun _ => "answer")
        "q").step_back_context = [] ∧
      (get_final_rag_chain (fun s => s) (fun _ => []) (fun _ => "answer")
        "q").answer = (fun _ : ResponsePrompt => "answer") ⟨[], [], "q"⟩) :=
  ⟨rfl, rfl, empty_retrieval_still_synthesizes (fun s => s) (fun _ => [])
    (fun _ => "answer") "q" rfl rfl⟩

/-- C9: whenever `LANGCHAIN_API_KEY` is unset or empty, `set_env` fails with
the `TypeError` raised by assigning `None` into `os.environ`, before the
`GROQ_API_KEY` and `PINECONE_API_KEY` credential checks are reached — so the
pipeline aborts there even when both required credentials are present. -/
theorem set_env_missing_langchain_key_typeerror (env : Env) (project_name : String)
    (h : envGet env "LANGCHAIN_API_KEY" = none ∨
      envGet env "LANGCHAIN_API_KEY" = some "") :
    set_env env project_name = Except.error PyError.typeError := by
  have e : envGet (envSet (envSet (envSet env "LANGCHAIN_TRACING_V2" "true")
      "LANGCHAIN_ENDPOINT" "https://api.smith.langchain.com")
      "LANGCHAIN_PROJECT" project_name) "LANGCHAIN_API_KEY"
      = envGet env "LANGCHAIN_API_KEY" := by
    rw [envGet_envSet_ne _ _ _ _ (by decide),
      envGet_envSet_ne _ _ _ _ (by decide),
      envGet_envSet_ne _ _ _ _ (by decide)]
  have hnot : os_param_not_set (envSet (envSet (envSet env
      "LANGCHAIN_TRACING_V2" "true") "LANGCHAIN_ENDPOINT"
      "https://api.smith.langchain.com") "LANGCHAIN_PROJECT" project_name)
      "LANGCHAIN_API_KEY" = true := by
    unfold os_param_not_set
    rw [e]
    rcases h with h | h <;> rw [h] <;> rfl
  simp only [set_env]
  simp [hnot]

theorem set_env_missing_langchain_key_typeerror_witness :
    (envGet [("GROQ_API_KEY", "g"), ("PINECONE_API_KEY", "p")]
        "LANGCHAIN_API_KEY" = none ∨
      envGet [("GROQ_API_KEY", "g"), ("PINECONE_API_KEY", "p")]
        "LANGCHAIN_API_KEY" = some "") ∧
    set_env [("GROQ_API_KEY", "g"), ("PINECONE_API_KEY", "p")]
      "rag_abstract_8_python" = Except.error PyError.typeError :=
  ⟨Or.inl rfl, set_env_missing_langchain_key_typeerror
    [("GROQ_API_KEY", "g"), ("PINECONE_API_KEY", "p")]
    "rag_abstract_8_python" (Or.inl rfl)⟩

/-- C10: for every filename whose basename has no dot, `get_index_name` fails
(Python raises `IndexError` on the `[0]` indexing of the empty list left by
dropping the last dot-separated component), so an index identifier is only
produced for filenames with an extension. -/
theorem get_index_name_no_dot_fails (pre ds : String)
    (h : '.' ∉ basename ds.data) :
    get_index_name pre ds = none := by
  unfold get_index_name
  rw [splitOnChar_of_not_mem '.' (basename ds.data) h]
  rfl

theorem get_index_name_no_dot_fails_witness :
    '.' ∉ basename ("dir/myfile" : String).data ∧
    get_index_name "rag-abstract-8" "dir/myfile" = none :=
  ⟨by decide, get_index_name_no_dot_fails "rag-abstract-8" "dir/myfile" (by decide)⟩

/-- C1: provisioning is idempotent.  When the store already reports the index
identifier (exactly one index with that name), `get_retriever` makes no upsert
(`from_documents`) call and leaves the store unchanged while still returning
the retrieval handle; and, starting from any store with at most one index of
that name, provisioning twice with identical inputs leaves the same store
state — hence the same vector count — as provisioning once. -/
theorem get_retriever_idempotent (st : PineconeState) (numDocs k : Nat)
    (index_name : String) (h : countName st index_name ≤ 1) :
    (get_retriever st numDocs k index_name).1 = ⟨index_name, k⟩ ∧
    (countName st index_name = 1 →
      (get_retriever st numDocs k index_name).2.2 = false ∧
      (get_retriever st numDocs k index_name).2.1 = st) ∧
    (get_retriever (get_retriever st numDocs k index_name).2.1 numDocs k
        index_name).2.1 = (get_retriever st numDocs k index_name).2.1 ∧
    totalVectors (get_retriever (get_retriever st numDocs k index_name).2.1
        numDocs k index_name).2.1
      = totalVectors (get_retriever st numDocs k index_name).2.1 := by
  have hsecond : get_retriever (get_retriever st numDocs k index_name).2.1
      numDocs k index_name
      = (⟨index_name, k⟩, (get_retriever st numDocs k index_name).2.1, false) :=
    get_retriever_existing _ numDocs k _
      (countName_after_get_retriever st numDocs k index_name h)
  refine ⟨?_, ?_, ?_, ?_⟩
  · rcases Nat.le_one_iff_eq_zero_or_eq_one.mp h with h0 | h1
    · rw [get_retriever_fresh st numDocs k index_name
        (by rw [h0]; exact Nat.zero_ne_one)]
    · rw [get_retriever_existing st numDocs k index_name h1]
  · intro h1
    rw [get_retriever_existing st numDocs k index_name h1]
    exact ⟨rfl, rfl⟩
  · rw [hsecond]
  · rw [hsecond]

theorem get_retriever_idempotent_witness :
    countName ⟨[("idx", 7)]⟩ "idx" ≤ 1 ∧
    ((get_retriever ⟨[("idx", 7)]⟩ 3 5 "idx").1 = ⟨"idx", 5⟩ ∧
      (countName ⟨[("idx", 7)]⟩ "idx" = 1 →
        (get_retriever ⟨[("idx", 7)]⟩ 3 5 "idx").2.2 = false ∧
        (get_retriever ⟨[("idx", 7)]⟩ 3 5 "idx").2.1 = ⟨[("idx", 7)]⟩) ∧
      (get_retriever (get_retriever ⟨[("idx", 7)]⟩ 3 5 "idx").2.1 3 5
          "idx").2.1 = (get_retriever ⟨[("idx", 7)]⟩ 3 5 "idx").2.1 ∧
      totalVectors (get_retriever (get_retriever ⟨[("idx", 7)]⟩ 3 5
          "idx").2.1 3 5 "idx").2.1
        = totalVectors (get_retriever ⟨[("idx", 7)]⟩ 3 5 "idx").2.1) :=
  ⟨by decide, get_retriever_idempotent ⟨[("idx", 7)]⟩ 3 5 "idx" (by decide)⟩

/-- C5: every chunk of a successful `split_pdf` run has token count at most
`chunk_size` (in the model a chunk is its token sequence, so its token count
is its length). -/
theorem split_pdf_chunk_token_bound {α : Type} (tokens : List α)
    (chunk_size chunk_overlap : Nat) (chunks : List (List α)) (c : List α)
    (h : split_pdf tokens chunk_size chunk_overlap = Except.ok chunks)
    (hc : c ∈ chunks) : c.length ≤ chunk_size := by
  unfold split_pdf at h
  by_cases hcfg : chunk_size ≤ chunk_overlap
  · rw [if_pos hcfg] at h
    exact absurd h (by simp)
  · rw [if_neg hcfg] at h
    have hchunks : chunks
        = chunkTokensAux chunk_size (chunk_size - chunk_overlap)
          tokens.length tokens := by
      injection h with h2
      exact h2.symm
    exact chunkTokensAux_length_le chunk_size (chunk_size - chunk_overlap)
      (by omega) tokens.length tokens (Nat.le_refl _) c (hchunks ▸ hc)

theorem split_pdf_chunk_token_bound_witness :
    split_pdf ([0, 1, 2, 3, 4] : List Nat) 2 1
      = Except.ok [[0, 1], [1, 2], [2, 3], [3, 4]] ∧
    ([0, 1] : List Nat) ∈ [[0, 1], [1, 2], [2, 3], [3, 4]] ∧
    ([0, 1] : List Nat).length ≤ 2 :=
  ⟨rfl, by simp, split_pdf_chunk_token_bound [0, 1, 2, 3, 4] 2 1
    [[0, 1], [1, 2], [2, 3], [3, 4]] [0, 1] rfl (by simp)⟩

/-- C3 counterexample: with the prefix `get_index_name` is called with in
`main` and the filename `a!.pdf`, the identifier is `rag-abstract-8-a-`,
which ends in a hyphen and therefore does not match
`[a-z0-9]+(-[a-z0-9]+)*` — the claim fails as universally stated. -/
theorem get_index_name_regex_counterexample :
    get_index_name "rag-abstract-8" "a!.pdf" = some "rag-abstract-8-a-" ∧
    matchesIndexRegex "rag-abstract-8-a-" = false :=
  ⟨rfl, rfl⟩

/-- C3 (amended): every identifier produced by `get_index_name` consists only
of characters in `[a-z0-9-]`, contains no repeated hyphens and is at most 45
characters long; full membership in `[a-z0-9]+(-[a-z0-9]+)*` does not hold in
general because a leading or trailing hyphen can occur. -/
theorem get_index_name_charset (pre ds s : String)
    (h : get_index_name pre ds = some s) :
    s.data.all (fun c => isLowerAlnum c || c == '-') = true ∧
    noRepeatHyphen s.data = true ∧ s.length ≤ 45 := by
  unfold get_index_name at h
  rcases Option.map_eq_some'.mp h with ⟨stem, hstem, hs⟩
  subst hs
  dsimp only
  refine ⟨?_, noRepeatHyphen_take _ _ (noRepeatHyphen_collapseHyphens _), ?_⟩
  · rw [List.all_eq_true]
    intro c hc
    have hmem := mem_collapseHyphens _ c ((List.take_sublist _ _).subset hc)
    rcases List.mem_map.mp hmem with ⟨a, _, rfl⟩
    exact charMap_in_charset a
  · show (List.take 45 _).length ≤ 45
    exact List.length_take_le _ _

theorem get_index_name_charset_witness :
    get_index_name "rag-abstract-8" "doc.pdf" = some "rag-abstract-8-doc" ∧
    (("rag-abstract-8-doc" : String).data.all
        (fun c => isLowerAlnum c || c == '-') = true ∧
      noRepeatHyphen ("rag-abstract-8-doc" : String).data = true ∧
      ("rag-abstract-8-doc" : String).length ≤ 45) :=
  ⟨rfl, get_index_name_charset "rag-abstract-8" "doc.pdf"
    "rag-abstract-8-doc" rfl⟩

end Rag
